/-
Verification of the intacct request/response execution engine
(github.com/jfcote87/intacct) against its natural-language specification.

The Go sources are shallowly embedded: pure functions become Lean
functions, stateful methods become explicit state passing, Go time.Time
values used only for ordering (session expiries) become Int timestamps,
calendar dates become absolute day counts, and fallible code returns
Option or Except.  Reflection-driven XML decoding of a payload into a
caller-supplied Go value is external to the engine; it is abstracted as
a target descriptor carrying the decode outcome for a payload, exactly
the information the decode loop in response.go consumes.
-/
import Mathlib

namespace Intacct

/-! ## Basic wire/data model (response.go, request.go)

Rows of a data payload are opaque XML fragments; the engine never
inspects them, so they are modelled as strings. -/

/-- One record inside a result data element (opaque to the engine). -/
abbrev Row := String

/-- ErrorDetail describes each error (response.go).  The wrapped Go
error value of the Err field is modelled as an optional message. -/
structure ErrorDetail where
  errorNo : String
  description : String
  description2 : String
  correction : String
  err : Option String
  deriving Repr, DecidableEq

/-- ResultsError contains an array of errors corresponding to the
functions passed in Exec (response.go). -/
abbrev ResultsError := List (List ErrorDetail)

/-- A Go error value returned by the engine: a top-level ControlError,
an OperationError, a ResultsError, or a plain errors.New / fmt.Errorf
string. -/
inductive GoErr where
  | ctl (e : List ErrorDetail)
  | op (e : List ErrorDetail)
  | results (e : ResultsError)
  | str (s : String)
  deriving Repr, DecidableEq

/-- ResultData of executing a function (response.go).  Payload holds
the inner xml, modelled as the list of its top level elements. -/
structure ResultData where
  listType : String
  count : Int
  totalCount : Int
  numRemaining : Int
  resultID : String
  payload : List Row
  deriving Repr, DecidableEq

/-- Result wraps the outcome for one function call (response.go). -/
structure Result where
  status : String
  function : String
  controlID : String
  errors : List ErrorDetail
  data : Option ResultData
  deriving Repr, DecidableEq

/-- ResponseAuth returns the authentication result for a request
(response.go).  Timestamps are modelled as Int instants; the Go zero
time.Time is modelled as 0. -/
structure ResponseAuth where
  status : String
  userID : String
  companyID : String
  sessionTimestamp : Int
  sessionTimeout : Int
  deriving Repr, DecidableEq

/-- Go zero value of time.Time in the Int instant model. -/
def goZeroTime : Int := 0

/-- getTimeout on a possibly nil *ResponseAuth (response.go lines
104-110): a nil receiver yields the zero time. -/
def ResponseAuth.getTimeout : Option ResponseAuth → Int
  | none => goZeroTime
  | some ra => ra.sessionTimeout

/-- Response contains function results from a Request (response.go).
ErrorMsg and OpError are nil-able pointers, hence Options. -/
structure Response where
  auth : Option ResponseAuth
  errorMsg : Option (List ErrorDetail)
  opError : Option (List ErrorDetail)
  results : List Result
  deriving Repr, DecidableEq

/-- execErr returns the top level errors to indicate Exec error
(response.go lines 29-37). -/
def Response.execErr (r : Response) : Option GoErr :=
  match r.errorMsg with
  | some e => some (.ctl e)
  | none =>
    match r.opError with
    | some e => some (.op e)
    | none => none

/-! ## Session cache (intacct.go lines 254-332)

A Session holds a token, endpoint, location, expiry and safety margin.
The mutex only serialises access; the guarded state transition itself
is sequential, so it is embedded as a pure state-passing function.
The RefreshFunc collaborator is modelled by the outcome it would
produce when invoked. -/

/-- SessionResult is the result of a getSessionID function
(intacct.go). -/
structure SessionResult where
  sessionID : String
  endpoint : String
  locationID : String
  expires : Int
  deriving Repr, DecidableEq

/-- Session caches and refreshes a sessionid (intacct.go lines
256-264).  refreshFunc models the configured RefreshFunc closure by
the result of calling it (none when the field is nil). -/
structure Session where
  id : String
  endpoint : String
  locationID : String
  expires : Int
  expiryDelta : Int
  refreshFunc : Option (Except GoErr SessionResult)
  deriving Repr

/-- Refresh collects a new sessionid (intacct.go lines 297-310).
Returns the updated session together with the Go error value. -/
def Session.Refresh (s : Session) : Session × Option GoErr :=
  match s.refreshFunc with
  | none => (s, some (.str "expired session, no refresh function specified"))
  | some (.error e) => (s, some e)
  | some (.ok res) =>
    ({ s with id := res.sessionID, endpoint := res.endpoint,
              locationID := res.locationID, expires := res.expires }, none)

/-- GetAuthElement returns a sessionID to authenticate a request
(intacct.go lines 276-291).  now is the Int instant of time.Now();
curTime adds ExpiryDelta seconds to it.  The source triggers Refresh
when the cached id is empty or when curTime.Sub(s.Expires) < 0.
The returned Bool reports whether Refresh was invoked. -/
def Session.GetAuthElement (s : Session) (now : Int) :
    Session × Except GoErr String × Bool :=
  let curTime := now + s.expiryDelta
  if s.id.length = 0 ∨ curTime - s.expires < 0 then
    match s.Refresh with
    | (s2, some e) => (s2, .error e, true)
    | (s2, none) => (s2, .ok s2.id, true)
  else
    (s, .ok s.id, false)

/-- CheckResponse sets the session timeout from an observed response
(intacct.go lines 314-323); a nil response leaves the session
untouched. -/
def Session.CheckResponse (s : Session) (r : Option Response) : Session :=
  match r with
  | none => s
  | some resp =>
    let tm := ResponseAuth.getTimeout resp.auth
    if tm - s.expires > 0 then { s with expires := tm } else s

/-! ## Error rendering (response.go lines 122-151, 223-237) -/

/-- errString renders one ErrorDetail (response.go lines 146-151). -/
def ErrorDetail.errString (e : ErrorDetail) (pre : String) : String :=
  match e.err with
  | some m => m
  | none =>
    pre ++ " ErrorNo: " ++ e.errorNo ++ " - " ++ e.description ++ " - " ++ e.description2

/-- Error on a ControlError (response.go lines 122-127). -/
def controlErrorString (e : List ErrorDetail) : String :=
  match e with
  | [] => "No error"
  | d :: _ => d.errString "control"

/-- Error on an OperationError (response.go lines 129-135). -/
def operationErrorString (e : List ErrorDetail) : String :=
  match e with
  | [] => "No error"
  | d :: _ => d.errString "operation"

/-- Error on a ResultsError (response.go lines 223-237): walks the per
position lists, prefixing every non-empty entry with its position. -/
def resultsErrorString (re : ResultsError) : String :=
  (re.foldl (fun acc detail =>
      match acc, detail with
      | (msg, pre, idx), [] => (msg, pre, idx + 1)
      | (msg, pre, idx), d :: _ =>
        let pre2 := if pre > "" then " | result[" ++ toString idx ++ "]"
                    else "result[" ++ toString idx ++ "]"
        (msg ++ d.errString pre2, pre2, idx + 1))
    (("", "", 0) : String × String × Nat)).1

/-- Message carried by a GoErr value, following each Error method. -/
def GoErr.message : GoErr → String
  | .ctl e => controlErrorString e
  | .op e => operationErrorString e
  | .results re => resultsErrorString re
  | .str s => s

/-! ## Result and Response decoding (response.go lines 61-86, 185-217)

The reflection on a caller-supplied target value is abstracted by a
target descriptor: the Go nil interface, an invalid destination (a non
pointer value or a nil pointer), or a usable pointer whose
reflection-driven payload decode is summarised by the outcome function
it induces on payloads.  A Go runtime panic is a distinct outcome from
a returned error. -/

/-- Outcome of running Go code that can panic. -/
inductive GoOutcome (α : Type) where
  | ok (a : α)
  | panic (msg : String)
  deriving Repr

/-- Caller-supplied decode target (one entry of returnValues). -/
inductive Dst where
  | nilIface
  | invalidPtr
  | ptr (dec : List Row → Except String Unit)

/-- Decode unmarshals a result's payload into dst (response.go lines
185-217).  With structured errors present it returns them; a nil dst
is ignored; a non pointer or nil pointer dst yields an error; then the
source reads r.Data.Payload, a nil pointer dereference (panic) when
Data is absent; otherwise the payload decode outcome decides. -/
def Result.Decode (r : Result) (dst : Dst) : GoOutcome (Option GoErr) :=
  if r.errors ≠ [] then .ok (some (.results [r.errors])) else
  match dst with
  | .nilIface => .ok none
  | .invalidPtr => .ok (some (.str "expected a non-nil ptr"))
  | .ptr dec =>
    match r.data with
    | none => .panic "runtime error: invalid memory address or nil pointer dereference"
    | some d =>
      match dec d.payload with
      | .ok _ => .ok none
      | .error e => .ok (some (.str e))

/-- The synthetic per position entry recorded for a decode failure
(response.go line 79). -/
def decodeErrorDetail (e : GoErr) : ErrorDetail :=
  { errorNo := "", description := "Decode Error", description2 := "",
    correction := "", err := some e.message }

/-- Loop body of Response.Decode (response.go lines 67-81): walks the
results with their index, accumulating the hasError flag and the per
position error records. -/
def Response.decodeLoop (returnValues : List Dst) :
    List Result → Nat → GoOutcome (Bool × ResultsError)
  | [], _ => .ok (false, [])
  | result :: rest, idx =>
    let step : GoOutcome (Bool × List ErrorDetail) :=
      if result.errors ≠ [] then .ok (true, result.errors)
      else
        match returnValues.get? idx with
        | none => .ok (false, [])
        | some .nilIface => .ok (false, [])
        | some dst =>
          match result.Decode dst with
          | .panic m => .panic m
          | .ok none => .ok (false, [])
          | .ok (some e) => .ok (true, [decodeErrorDetail e])
    match step with
    | .panic m => .panic m
    | .ok (hasErr, entry) =>
      match Response.decodeLoop returnValues rest (idx + 1) with
      | .panic m => .panic m
      | .ok (hasErrRest, tail) => .ok (hasErr || hasErrRest, entry :: tail)

/-- Decode interrogates the Response (response.go lines 61-86): a top
or operation level error returns immediately; otherwise every Result
is walked, recording structured errors and per target decode failures
against their position; the aggregate is returned only when some
position recorded an error. -/
def Response.Decode (r : Response) (returnValues : List Dst) :
    GoOutcome (Option GoErr) :=
  match r.execErr with
  | some e => .ok (some e)
  | none =>
    match Response.decodeLoop returnValues r.results 0 with
    | .panic m => .panic m
    | .ok (hasError, errResult) =>
      if hasError then .ok (some (.results errResult)) else .ok none

/-! ## Executor (intacct.go lines 38-55, 334-455)

The Go context is either nil or carries a cancellation flag; the
transport collaborator (HTTPClientFunc.Do followed by the xml parse of
the body) is a call-level parameter returning a parsed Response or a
transport/parse error; time.Now().UnixNano() is the nowNano
parameter. -/

/-- Go context: nil, or a context with its cancellation state. -/
abbrev Ctx := Option Bool

/-- FormatInt base 16 (strconv) for the time based fallback id. -/
def formatInt16 (n : Int) : String :=
  if n < 0 then "-" ++ (Nat.toDigits 16 (-n).toNat).asString
  else (Nat.toDigits 16 n.toNat).asString

/-- ControlIDFunc generates unique control IDs (intacct.go line 39); a
nil function value is modelled as none. -/
abbrev ControlIDFunc := Option (Ctx → String)

/-- ID executes a ControlIDFunc, falling back to the hex encoded
current time in nanoseconds for nil instances (intacct.go lines
43-48). -/
def ControlIDFunc.ID (idFunc : ControlIDFunc) (ctx : Ctx) (nowNano : Int) : String :=
  match idFunc with
  | none => formatInt16 nowNano
  | some f => f ctx

/-- Payload of one submitted function; the engine only reads its
control id (the Function interface of functions.go lines 18-20). -/
structure Function where
  controlID : String
  payload : String
  deriving Repr, DecidableEq

/-- Authenticator collaborator (intacct.go lines 75-91): supplies the
credential element (opaque, modelled as a string) or an error. -/
structure Authenticator where
  getAuthElement : Ctx → Except GoErr String
  endpoint : Option String

/-- Service configuration (intacct.go lines 57-71). -/
structure Service where
  senderID : String
  password : String
  authenticator : Option Authenticator
  controlIDFunc : ControlIDFunc

/-- ControlConfig for transactional data (intacct.go lines 463-476). -/
structure ControlConfig where
  isTransaction : Bool
  isUnique : Bool
  includeWhitespace : Bool
  debug : Bool
  controlID : String
  policyID : String
  dtdVersion : String
  deriving Repr, DecidableEq

/-- Control header of a request (request.go lines 20-30). -/
structure Control where
  senderID : String
  password : String
  controlID : String
  uniqueID : Bool
  dtdVersion : String
  policyID : String
  debug : Bool
  includewhitespace : Bool
  deriving Repr, DecidableEq

/-- RequestFunction wraps a function with its correlation id
(request.go lines 42-45). -/
structure RequestFunction where
  controlID : String
  payload : Function
  deriving Repr, DecidableEq

/-- Request operation element (request.go lines 33-39). -/
structure Operation where
  transaction : Bool
  auth : String
  content : List RequestFunction
  deriving Repr, DecidableEq

/-- Request envelope (request.go lines 13-17). -/
structure Request where
  control : Control
  op : Operation
  deriving Repr, DecidableEq

/-- DefaultDTDVersion used for requests (intacct.go line 29). -/
def DefaultDTDVersion : String := "3.0"

/-- isEmpty returns defaultVal when val is empty (intacct.go lines
412-417). -/
def isEmpty (val defaultVal : String) : String :=
  if val = "" then defaultVal else val

/-- validate checks call preconditions in source order (intacct.go
lines 340-357). -/
def Service.validate (sv : Option Service) (ctx : Ctx) (f : List Function) :
    Option GoErr :=
  match sv with
  | none => some (.str "nil Service")
  | some s =>
    if s.authenticator.isNone then some (.str "nil Authenticator")
    else if s.senderID = "" ∨ s.password = "" then some (.str "SendorID/Passowrd is empty")
    else if ctx.isNone then some (.str "nil context")
    else if f.length = 0 then some (.str "no functions specified")
    else none

/-- Control creates the request header from an optional ControlConfig
(intacct.go lines 391-410).  With a config present the header control
id is taken verbatim from it; the fallback generator is consulted only
for the nil config default. -/
def Service.Control (sv : Service) (ctx : Ctx) (cc : Option ControlConfig)
    (nowNano : Int) : Control :=
  match cc with
  | none =>
    { senderID := sv.senderID, password := sv.password,
      controlID := sv.controlIDFunc.ID ctx nowNano,
      uniqueID := false, dtdVersion := DefaultDTDVersion,
      policyID := "", debug := false, includewhitespace := false }
  | some c =>
    { senderID := sv.senderID, password := sv.password,
      controlID := c.controlID,
      uniqueID := c.isUnique, dtdVersion := isEmpty c.dtdVersion DefaultDTDVersion,
      policyID := c.policyID, debug := c.debug,
      includewhitespace := c.includeWhitespace }

/-- makeRequest builds the posted request (intacct.go lines 420-455):
obtains the credential element, builds the header, and assigns each
function the isEmpty merge of its own control id with the header
id. -/
def Service.makeRequest (sv : Service) (ctx : Ctx) (cc : Option ControlConfig)
    (functions : List Function) (nowNano : Int) : Except GoErr Request :=
  match sv.authenticator with
  | none => .error (.str "no authentication specified")
  | some auth =>
    match auth.getAuthElement ctx with
    | .error e => .error e
    | .ok authElement =>
      let control := sv.Control ctx cc nowNano
      let reqFuncs := functions.map fun f =>
        { controlID := isEmpty f.controlID control.controlID, payload := f }
      .ok { control := control,
            op := { transaction := (match cc with
                                    | some c => c.isTransaction
                                    | none => false),
                    auth := authElement, content := reqFuncs } }

/-- ExecWithControl (intacct.go lines 360-388): validate, build the
request, dispatch through the transport collaborator (which includes
the xml parse of the body), and return the parsed response together
with its top or operation level error. -/
def Service.ExecWithControl (sv : Option Service) (ctx : Ctx)
    (cc : Option ControlConfig) (f : List Function) (nowNano : Int)
    (doFn : Ctx → Request → Except GoErr Response) :
    Option Response × Option GoErr :=
  match Service.validate sv ctx f with
  | some e => (none, some e)
  | none =>
    match sv with
    | none => (none, some (.str "nil Service"))
    | some s =>
      match s.makeRequest ctx cc f nowNano with
      | .error e => (none, some e)
      | .ok req =>
        match doFn ctx req with
        | .error e => (none, some e)
        | .ok resp => (some resp, resp.execErr)

/-! ## Slice-target decoding used by the pagination loops

Both GetAll loops call resp.Decode(resultSlice) with a single pointer
to slice target.  This is Response.Decode specialised to returnValues
of length one: the Result.Decode slice branch (response.go lines
198-215) walks the payload elements in document order and appends each
to the caller's slice; the elements themselves are opaque rows, so
their individual decode succeeds and the appended suffix is exactly
the payload. -/

/-- Loop of Response.Decode for a single slice target at position 0,
threading the caller-owned accumulator. -/
def Response.decodeSliceLoop :
    List Result → Nat → List Row → GoOutcome (Bool × ResultsError × List Row)
  | [], _, acc => .ok (false, [], acc)
  | result :: rest, idx, acc =>
    let step : GoOutcome (Bool × List ErrorDetail × List Row) :=
      if result.errors ≠ [] then .ok (true, result.errors, acc)
      else if idx ≥ 1 then .ok (false, [], acc)
      else
        match result.data with
        | none => .panic "runtime error: invalid memory address or nil pointer dereference"
        | some d => .ok (false, [], acc ++ d.payload)
    match step with
    | .panic m => .panic m
    | .ok (hasErr, entry, acc2) =>
      match Response.decodeSliceLoop rest (idx + 1) acc2 with
      | .panic m => .panic m
      | .ok (hasErrRest, tail, acc3) => .ok (hasErr || hasErrRest, entry :: tail, acc3)

/-- Response.Decode specialised to one slice target, also returning
the accumulator state. -/
def Response.DecodeSlice (r : Response) (acc : List Row) :
    GoOutcome (Option GoErr × List Row) :=
  match r.execErr with
  | some e => .ok (some e, acc)
  | none =>
    match Response.decodeSliceLoop r.results 0 acc with
    | .panic m => .panic m
    | .ok (hasError, errResult, acc2) =>
      if hasError then .ok (some (.results errResult), acc2) else .ok (none, acc2)

/-! ## Read family pagination (functions.go lines 25-173)

The Executor collaborator is a script of call outcomes consumed in
order; sv.Exec returns the parsed response paired with its top or
operation level error (intacct.go line 387).  Each loop returns the
list of calls it issued so the theorems can speak about the
continuation requests. -/

/-- Reader function payload (functions.go lines 25-38). -/
structure Reader where
  xmlName : String
  object : String
  keys : Option String
  query : Option String
  fieldList : String
  maxRecs : Int
  returnFormat : String
  docparid : String
  relationship : String
  resultID : String
  controlID : String
  deriving Repr, DecidableEq

/-- ReadMore returns a Reader to retrieve remaining records
(functions.go lines 97-102); all unset fields are Go zero values. -/
def ReadMore (resultID : String) : Reader :=
  { xmlName := "readMore", object := "", keys := none, query := none,
    fieldList := "", maxRecs := 0, returnFormat := "", docparid := "",
    relationship := "", resultID := resultID, controlID := "" }

/-- ReadByQuery returns a Reader for a query string (functions.go
lines 85-93). -/
def ReadByQuery (objectName qry : String) : Reader :=
  { xmlName := "readByQuery", object := objectName, keys := none,
    query := some qry, fieldList := "*", maxRecs := 0,
    returnFormat := "xml", docparid := "", relationship := "",
    resultID := "", controlID := "" }

/-- Loop of Reader.GetAll (functions.go lines 157-171): execute,
decode into the accumulator, then continue with a ReadMore carrying
the returned continuation token while records remain. -/
def Reader.GetAllLoop :
    List (Except GoErr Response) → Reader → List Row → List Reader →
    GoOutcome (Option GoErr × List Row × List Reader)
  | [], _, acc, calls => .ok (some (.str "model: executor script exhausted"), acc, calls)
  | e :: script, rptr, acc, calls =>
    let calls2 := calls ++ [rptr]
    match e with
    | .error err => .ok (some err, acc, calls2)
    | .ok resp =>
      match resp.execErr with
      | some err => .ok (some err, acc, calls2)
      | none =>
        match resp.DecodeSlice acc with
        | .panic m => .panic m
        | .ok (some err, acc2) => .ok (some err, acc2, calls2)
        | .ok (none, acc2) =>
          match resp.results with
          | r0 :: _ =>
            match r0.data with
            | some d =>
              if d.numRemaining > 0 then
                Reader.GetAllLoop script (ReadMore d.resultID) acc2 calls2
              else .ok (none, acc2, calls2)
            | none => .ok (none, acc2, calls2)
          | [] => .ok (none, acc2, calls2)

/-- GetAll reads all records for a query (functions.go lines 153-173);
only readByQuery and readMore Readers are accepted. -/
def Reader.GetAll (r : Reader) (script : List (Except GoErr Response))
    (acc : List Row) : GoOutcome (Option GoErr × List Row × List Reader) :=
  if r.xmlName ≠ "readByQuery" ∧ r.xmlName ≠ "readMore" then
    .ok (some (.str ("GetAll not allowed on " ++ r.xmlName)), acc, [])
  else
    Reader.GetAllLoop script r acc []

/-! ## Query family (contact.go lines 310-479) -/

/-- Select clause of a query (contact.go lines 361-368). -/
structure Select where
  fields : List String
  count : String
  avg : String
  min : String
  max : String
  sum : String
  deriving Repr, DecidableEq

/-- OrderBy describes one sort condition (contact.go lines 376-380). -/
structure OrderBy where
  field : String
  descending : Bool
  deriving Repr, DecidableEq

/-- QuerySort wraps the order conditions (contact.go lines 370-373). -/
structure QuerySort where
  fields : List OrderBy
  deriving Repr, DecidableEq

/-- QueryOptions set query flags (contact.go lines 394-397). -/
structure QueryOptions where
  caseInsensitive : Bool
  showPrivate : Bool
  deriving Repr, DecidableEq

/-- Filter is a hierarchy of criteria (contact.go lines 405-410); the
value field is a FilterVals string list. -/
inductive Filter where
  | node (xmlName : String) (field : String) (value : List String)
         (filters : List Filter)

/-- Query function payload (contact.go lines 315-328). -/
structure Query where
  object : String
  select : Select
  filter : Option Filter
  sort : Option QuerySort
  options : Option QueryOptions
  pageSz : Int
  offset : Int
  transactionType : String
  controlID : String

/-- Loop of Query.GetAll (contact.go lines 342-356): while records
remain, execute the query, decode into the accumulator, read the
remaining count and advance the offset by the page size. -/
def Query.GetAllLoop :
    List (Except GoErr Response) → Query → Int → Int → List Row → List Query →
    GoOutcome (Option GoErr × List Row × List Query)
  | script, q, pgsz, numRemaining, acc, calls =>
    if numRemaining = 0 then .ok (none, acc, calls)
    else
      match script with
      | [] => .ok (some (.str "model: executor script exhausted"), acc, calls)
      | e :: rest =>
        let calls2 := calls ++ [q]
        match e with
        | .error err => .ok (some err, acc, calls2)
        | .ok resp =>
          match resp.execErr with
          | some err => .ok (some err, acc, calls2)
          | none =>
            match resp.DecodeSlice acc with
            | .panic m => .panic m
            | .ok (some err, acc2) => .ok (some err, acc2, calls2)
            | .ok (none, acc2) =>
              match resp.results with
              | [] => .ok (some (.str "empty result returned"), acc2, calls2)
              | r0 :: _ =>
                match r0.data with
                | none => .ok (some (.str "empty result returned"), acc2, calls2)
                | some d =>
                  Query.GetAllLoop rest { q with offset := q.offset + pgsz }
                    pgsz d.numRemaining acc2 calls2

/-- GetAll reads all pages of a query (contact.go lines 337-358); a
zero page size defaults to 100 and the remaining count starts at
-1. -/
def Query.GetAll (q : Query) (script : List (Except GoErr Response))
    (acc : List Row) : GoOutcome (Option GoErr × List Row × List Query) :=
  let pgsz := if q.pageSz = 0 then 100 else q.pageSz
  Query.GetAllLoop script q pgsz (-1) acc []

/-! ## XML serialization of a Query (encoding/xml over the tags of
contact.go lines 315-328, 383-391, 437-444)

Marshalling is modelled as producing an element tree.  The encoding/xml
rules used by these types: a string or int field with omitempty is
dropped at its zero value, a nil pointer field with omitempty is
dropped, a bool marshals as its literal, a struct field marshals its
exported fields in order, a set XMLName overrides the element name,
and custom MarshalXML methods (OrderBy, FilterVals) emit their own
tokens. -/

/-- An XML node: element with attributes and children, or character
data. -/
inductive XmlNode where
  | elem (name : String) (attrs : List (String × String)) (children : List XmlNode)
  | text (s : String)

/-- MarshalXML of FilterVals (contact.go lines 437-444): one value
element per entry, nothing for an empty slice. -/
def FilterVals.MarshalXML (fv : List String) (startName : String) : List XmlNode :=
  fv.map fun val => .elem startName [] [.text val]

mutual

/-- Marshal of one Filter node: its XMLName names the element
(defaultName applies when unset), followed by the optional field
element, the FilterVals and the nested filters. -/
def Filter.marshalXML (defaultName : String) : Filter → XmlNode
  | .node xmlName field value filters =>
    let nm := if xmlName = "" then defaultName else xmlName
    .elem nm []
      ((if field = "" then [] else [.elem "field" [] [.text field]]) ++
       FilterVals.MarshalXML value "value" ++
       Filter.marshalList filters)

/-- Marshal of a list of nested filters (the untagged Filters field
marshals each entry, its own XMLName taking precedence over the field
name). -/
def Filter.marshalList : List Filter → List XmlNode
  | [] => []
  | f :: fs => Filter.marshalXML "Filters" f :: Filter.marshalList fs

end

/-- MarshalXML of OrderBy (contact.go lines 383-391): field element
then a descending flag element when set. -/
def OrderBy.marshalXML (o : OrderBy) : XmlNode :=
  .elem "order" []
    ([.elem "field" [] [.text o.field]] ++
     (if o.descending then [.elem "descending" [] []] else []))

/-- Marshal of QuerySort under its XMLName orderby. -/
def QuerySort.marshalXML (s : QuerySort) : XmlNode :=
  .elem "orderby" [] (s.fields.map OrderBy.marshalXML)

/-- Marshal of QueryOptions: omitempty bools. -/
def QueryOptions.marshalXML (o : QueryOptions) : XmlNode :=
  .elem "options" []
    ((if o.caseInsensitive then [.elem "caseinsensitive" [] [.text "true"]] else []) ++
     (if o.showPrivate then [.elem "showprivate" [] [.text "true"]] else []))

/-- Marshal of the Select clause: field elements then the omitempty
aggregate elements. -/
def Select.marshalXML (s : Select) : XmlNode :=
  .elem "select" []
    (s.fields.map (fun f => .elem "field" [] [.text f]) ++
     (if s.count = "" then [] else [.elem "count" [] [.text s.count]]) ++
     (if s.avg = "" then [] else [.elem "avg" [] [.text s.avg]]) ++
     (if s.min = "" then [] else [.elem "min" [] [.text s.min]]) ++
     (if s.max = "" then [] else [.elem "max" [] [.text s.max]]) ++
     (if s.sum = "" then [] else [.elem "sum" [] [.text s.sum]]))

/-- Marshal of a Query (contact.go lines 315-328): object, select,
then the omitempty filter, orderby, options, pagesize, offset and
docparid fields; ControlID has tag "-" and is never serialized. -/
def Query.marshalXML (q : Query) : XmlNode :=
  .elem "query" []
    ([.elem "object" [] [.text q.object], q.select.marshalXML] ++
     (match q.filter with
      | none => []
      | some f => [f.marshalXML "filter"]) ++
     (match q.sort with
      | none => []
      | some s => [s.marshalXML]) ++
     (match q.options with
      | none => []
      | some o => [o.marshalXML]) ++
     (if q.pageSz = 0 then [] else [.elem "pagesize" [] [.text (toString q.pageSz)]]) ++
     (if q.offset = 0 then [] else [.elem "offset" [] [.text (toString q.offset)]]) ++
     (if q.transactionType = "" then [] else [.elem "docparid" [] [.text q.transactionType]]))

mutual

/-- Whether an element with the given name occurs anywhere in the
tree. -/
def XmlNode.hasElem (name : String) : XmlNode → Bool
  | .text _ => false
  | .elem nm _ children => nm = name || XmlNode.anyElem name children

/-- Whether an element with the given name occurs in any of the
trees. -/
def XmlNode.anyElem (name : String) : List XmlNode → Bool
  | [] => false
  | c :: cs => XmlNode.hasElem name c || XmlNode.anyElem name cs

end

/-! ## ResultMap, the dynamic map decoder (resultmap.go)

A ResultMap is a Go map from tag name to one of: string, []string,
ResultMap, []ResultMap.  It is embedded as an association list with
unique keys (map assignment replaces); every map the decoder builds
has unique keys.  Go map iteration order is unspecified; the only
iteration (the Date accessor) is modelled in insertion order, which
coincides with Go whenever the Year/Month/Day keys appear once. -/

/-- A ResultMap value: the four dynamic shapes of resultmap.go. -/
inductive RVal where
  | str (s : String)
  | strs (ss : List String)
  | node (m : List (String × RVal))
  | nodes (ms : List (List (String × RVal)))

/-- The ResultMap itself. -/
abbrev RMap := List (String × RVal)

/-- Lookup of a key (Go map read). -/
def mapGet : RMap → String → Option RVal
  | [], _ => none
  | (k, v) :: rest, key => if k = key then some v else mapGet rest key

/-- Assignment of a key (Go map write): replaces an existing entry,
otherwise appends. -/
def mapSet : RMap → String → RVal → RMap
  | [], key, v => [(key, v)]
  | (k, w) :: rest, key, v =>
    if k = key then (k, v) :: rest else (k, w) :: mapSet rest key v

/-- An input markup token forest: the sibling sequence inside one
element, each sibling an element (with attributes and its own child
forest) or character data.  The forest encoding keeps the decoder
structurally recursive. -/
inductive Xml where
  | nil
  | elem (tag : String) (attrs : List (String × String)) (children : Xml) (rest : Xml)
  | text (s : String) (rest : Xml)

/-- Trim of the characters the decoder strips from character data
(resultmap.go line 169: space, newline, tab). -/
def trimWs (s : String) : String :=
  let ws : List Char := [' ', '\n', '\t']
  ((s.toList.dropWhile (ws.contains ·)).reverse.dropWhile (ws.contains ·)).reverse.asString

/-- The child map that folds into its parent as plain text: exactly
one entry, the inline-text key holding a string (resultmap.go lines
190-192). -/
def singleText : RMap → Option String
  | [(k, RVal.str s)] => if k = "" then some s else none
  | _ => none

/-- The type switch of newElement (resultmap.go lines 193-212), with
the already-decoded child map: promotes scalars to sequences on
repeats, drops a structured child over a textual entry and an empty
child over an absent or textual entry. -/
def newElementRM (rm : RMap) (tag : String) (newEl : RMap) : RMap :=
  match mapGet rm tag with
  | some (.nodes ms) => mapSet rm tag (.nodes (ms ++ [newEl]))
  | some (.node m) => mapSet rm tag (.nodes [m, newEl])
  | some (.str t) =>
    match singleText newEl with
    | some s => mapSet rm tag (.strs [t, s])
    | none => rm
  | some (.strs ts) =>
    match singleText newEl with
    | some s => mapSet rm tag (.strs (ts ++ [s]))
    | none => rm
  | none =>
    match singleText newEl with
    | some s => mapSet rm tag (.str s)
    | none => if newEl.length > 0 then mapSet rm tag (.node newEl) else rm

/-- The attribute entries a start element seeds its map with
(resultmap.go lines 160-162). -/
def attrsInit (attrs : List (String × String)) : RMap :=
  attrs.foldl (fun rm a => mapSet rm ("@" ++ a.1) (.str a.2)) []

/-- The token walk of UnmarshalXML (resultmap.go lines 158-180):
character data whose trim is non empty lands under the empty key, and
each child element goes through newElement with its recursively
decoded map (its attribute entries followed by its own walk). -/
def foldChildren (rm : RMap) : Xml → RMap
  | .nil => rm
  | .text s rest =>
    foldChildren (if trimWs s = "" then rm else mapSet rm "" (.str s)) rest
  | .elem tag attrs children rest =>
    foldChildren (newElementRM rm tag (foldChildren (attrsInit attrs) children)) rest

/-- UnmarshalXML of one element: attributes under the reserved @
prefix, then the walk of its children. -/
def decodeElem (attrs : List (String × String)) (children : Xml) : RMap :=
  foldChildren (attrsInit attrs) children

/-! ## Go calendar arithmetic for the Date accessor (resultmap.go
lines 63-94)

A time.Date(y, m, d, 0,0,0,0, UTC) instant is represented by its
absolute day number counted from January 1 of year 1 (the Go zero
time, day 0), after the month normalization time.Date performs.
IsZero is day 0. -/

/-- Go isLeap. -/
def goIsLeap (y : Int) : Bool := y % 4 = 0 ∧ (y % 100 ≠ 0 ∨ y % 400 = 0)

/-- Days from January 1 of year 1 up to January 1 of year y
(proleptic Gregorian). -/
def daysBeforeYear (y : Int) : Int :=
  365 * (y - 1) + Int.fdiv (y - 1) 4 - Int.fdiv (y - 1) 100 + Int.fdiv (y - 1) 400

/-- Cumulative days before each month in a non leap year (the
daysBefore table of the Go time package). -/
def daysBeforeMonthTable : Int → Int
  | 1 => 0 | 2 => 31 | 3 => 59 | 4 => 90 | 5 => 120 | 6 => 151
  | 7 => 181 | 8 => 212 | 9 => 243 | 10 => 273 | 11 => 304 | 12 => 334
  | _ => 365

/-- Days before month m of a year with the given leap status. -/
def daysBeforeMonth (m : Int) (leap : Bool) : Int :=
  daysBeforeMonthTable m + (if leap ∧ m ≥ 3 then 1 else 0)

/-- Go daysIn(m, year): length of a month. -/
def daysIn (m y : Int) : Int :=
  if m = 2 ∧ goIsLeap y then 29
  else daysBeforeMonthTable (m + 1) - daysBeforeMonthTable m

/-- Absolute day of time.Date(y, m, d, 0,0,0,0, UTC): the month is
normalized into 1..12 carrying into the year (the norm call of
time.Date), then days are summed, the day number taken as is. -/
def goDate (y m d : Int) : Int :=
  let m0 := m - 1
  let y2 := y + Int.fdiv m0 12
  let m2 := Int.fmod m0 12 + 1
  daysBeforeYear y2 + daysBeforeMonth m2 (goIsLeap y2) + (d - 1)

/-! ## strconv.Atoi with its error ignored (resultmap.go line 71) -/

/-- Digit-list value: the decimal value of a non empty all digit
list, none otherwise. -/
def digitsVal : List Char → Option Nat
  | [] => none
  | c :: rest =>
    if (c :: rest).all (·.isDigit) then
      some ((c :: rest).foldl (fun acc ch => acc * 10 + (ch.toNat - 48)) 0)
    else none

/-- Clamp to the int64 range (strconv.ParseInt returns the clamped
value together with ErrRange). -/
def clampInt64 (n : Int) : Int :=
  if n > 9223372036854775807 then 9223372036854775807
  else if n < -9223372036854775808 then -9223372036854775808
  else n

/-- strconv.Atoi with the error discarded: the parsed (possibly range
clamped) value on integer syntax, 0 otherwise. -/
def goAtoi (s : String) : Int :=
  match s.toList with
  | [] => 0
  | c :: rest =>
    if c = '+' then
      (match digitsVal rest with
       | some n => clampInt64 (Int.ofNat n)
       | none => 0)
    else if c = '-' then
      (match digitsVal rest with
       | some n => clampInt64 (-(Int.ofNat n))
       | none => 0)
    else
      match digitsVal (c :: rest) with
      | some n => clampInt64 (Int.ofNat n)
      | none => 0

/-- The string a non-string dynamic value converts to in the failed
type assertion sval, _ := v.(string). -/
def RVal.asGoString : RVal → String
  | .str s => s
  | _ => ""

/-! ## time.Parse for the two date layouts of the Date accessor

The layout 2006-01-02 demands four year digits, a dash, two month
digits, a dash, two day digits, nothing else; the month must lie in
1..12 and the day in 1..daysIn(month, year), else Parse errors.  The
layout 01-02-2006 is the same fields in month-day-year order. -/

/-- Numeric value of a digit character. -/
def dVal (c : Char) : Int := Int.ofNat (c.toNat - 48)

/-- Parse of layout 2006-01-02. -/
def parseYMD (s : String) : Option (Int × Int × Int) :=
  match s.toList with
  | [y1, y2, y3, y4, c1, m1, m2, c2, d1, d2] =>
    if c1 = '-' ∧ c2 = '-' ∧
       y1.isDigit ∧ y2.isDigit ∧ y3.isDigit ∧ y4.isDigit ∧
       m1.isDigit ∧ m2.isDigit ∧ d1.isDigit ∧ d2.isDigit then
      let y := ((dVal y1 * 10 + dVal y2) * 10 + dVal y3) * 10 + dVal y4
      let m := dVal m1 * 10 + dVal m2
      let d := dVal d1 * 10 + dVal d2
      if 1 ≤ m ∧ m ≤ 12 ∧ 1 ≤ d ∧ d ≤ daysIn m y then some (y, m, d) else none
    else none
  | _ => none

/-- Parse of layout 01-02-2006. -/
def parseMDY (s : String) : Option (Int × Int × Int) :=
  match s.toList with
  | [m1, m2, c1, d1, d2, c2, y1, y2, y3, y4] =>
    if c1 = '-' ∧ c2 = '-' ∧
       y1.isDigit ∧ y2.isDigit ∧ y3.isDigit ∧ y4.isDigit ∧
       m1.isDigit ∧ m2.isDigit ∧ d1.isDigit ∧ d2.isDigit then
      let y := ((dVal y1 * 10 + dVal y2) * 10 + dVal y3) * 10 + dVal y4
      let m := dVal m1 * 10 + dVal m2
      let d := dVal d1 * 10 + dVal d2
      if 1 ≤ m ∧ m ≤ 12 ∧ 1 ≤ d ∧ d ≤ daysIn m y then some (y, m, d) else none
    else none
  | _ => none

/-- One step of the range loop over the structured node in the Date
accessor (resultmap.go lines 69-80): the switch on the entry key. -/
def ymdStep (acc : Int × Int × Int) (kv : String × RVal) : Int × Int × Int :=
  let intVal := goAtoi kv.2.asGoString
  if kv.1 = "Year" ∨ kv.1 = "year" then (intVal, acc.2.1, acc.2.2)
  else if kv.1 = "Month" ∨ kv.1 = "month" then (acc.1, intVal, acc.2.2)
  else if kv.1 = "Day" ∨ kv.1 = "day" then (acc.1, acc.2.1, intVal)
  else acc

/-- Date accessor (resultmap.go lines 63-94): a structured node with
positive Year/Month/Day entries, else a YYYY-MM-DD string, else a
MM-DD-YYYY string; a zero resulting time yields nil. -/
def RMap.Date (rm : RMap) (name : String) : Option Int :=
  let tm : Int :=
    match mapGet rm name with
    | some (.node m) =>
      let ymd := m.foldl ymdStep ((-1, -1, -1) : Int × Int × Int)
      if ymd.1 > 0 ∧ ymd.2.1 > 0 ∧ ymd.2.2 > 0 then goDate ymd.1 ymd.2.1 ymd.2.2
      else 0
    | some (.str s) =>
      (match parseYMD s with
       | some (y, m, d) => goDate y m d
       | none =>
         match parseMDY s with
         | some (y, m, d) => goDate y m d
         | none => 0)
    | _ => 0
  if tm = 0 then none else some tm

/-! ## Specification-side helper definitions used by the theorem
statements (not part of the embedding of the source) -/

/-- The error record Response.Decode is expected to leave at one
position: the result's own structured errors, the synthetic record of
its target's decode failure, or nothing. -/
def posRecord (returnValues : List Dst) (idx : Nat) (res : Result) :
    List ErrorDetail :=
  if res.errors ≠ [] then res.errors
  else
    match returnValues.get? idx with
    | none => []
    | some .nilIface => []
    | some .invalidPtr => [decodeErrorDetail (.str "expected a non-nil ptr")]
    | some (.ptr dec) =>
      match res.data with
      | none => []
      | some d =>
        match dec d.payload with
        | .ok _ => []
        | .error e => [decodeErrorDetail (.str e)]

/-- The expected per position records for a result list starting at a
given position. -/
def specRecs (returnValues : List Dst) : Nat → List Result → ResultsError
  | _, [] => []
  | idx, res :: rest => posRecord returnValues idx res :: specRecs returnValues (idx + 1) rest

/-- The decoded child maps of the children carrying a given tag, in
document order. -/
def extractT (t : String) : Xml → List RMap
  | .nil => []
  | .text _ rest => extractT t rest
  | .elem tag attrs children rest =>
    if tag = t then decodeElem attrs children :: extractT t rest
    else extractT t rest

/-- Iterated application of the newElement switch for one tag. -/
def iterChildren (rm : RMap) (t : String) (els : List RMap) : RMap :=
  els.foldl (fun m el => newElementRM m t el) rm

/-- The newElement switch viewed as a transition on the entry stored
under one tag: what the tag maps to after one more decoded child
arrives. -/
def stepVal (o : Option RVal) (el : RMap) : Option RVal :=
  match o with
  | some (.nodes ms) => some (.nodes (ms ++ [el]))
  | some (.node m) => some (.nodes [m, el])
  | some (.str s) =>
    (match singleText el with
     | some v => some (.strs [s, v])
     | none => some (.str s))
  | some (.strs ss) =>
    (match singleText el with
     | some v => some (.strs (ss ++ [v]))
     | none => some (.strs ss))
  | none =>
    match singleText el with
    | some v => some (.str v)
    | none => if el.length > 0 then some (.node el) else none

/-- Iterated transition over the decoded children of one tag. -/
def foldVal (o : Option RVal) (els : List RMap) : Option RVal :=
  els.foldl stepVal o

/-- Decimal digit character of the units digit of a number. -/
def digitChar (k : Nat) : Char :=
  match k % 10 with
  | 0 => '0' | 1 => '1' | 2 => '2' | 3 => '3' | 4 => '4'
  | 5 => '5' | 6 => '6' | 7 => '7' | 8 => '8' | _ => '9'

/-- Two digit zero padded decimal numeral. -/
def pad2 (n : Nat) : String := [digitChar (n / 10), digitChar n].asString

/-- Four digit zero padded decimal numeral. -/
def pad4 (n : Nat) : String :=
  [digitChar (n / 1000), digitChar (n / 100), digitChar (n / 10), digitChar n].asString

/-! ## Concrete instances used in counterexamples and witnesses -/

/-- A session whose token expires at second 36000 (10:00) with a 60
second safety margin, and a working refresh procedure. -/
def c2session : Session :=
  { id := "tok", endpoint := "ep", locationID := "loc", expires := 36000,
    expiryDelta := 60,
    refreshFunc := some (.ok { sessionID := "newtok", endpoint := "ep2",
                               locationID := "loc2", expires := 72000 }) }

/-- A fully configured service. -/
def svOK : Service :=
  { senderID := "SND", password := "PWD",
    authenticator := some { getAuthElement := fun _ => .ok "AUTH",
                            endpoint := none },
    controlIDFunc := some (fun _ => "GEN") }

/-- A sample function payload with no explicit control id. -/
def fnBlank : Function := { controlID := "", payload := "body" }

/-! # Theorems -/

/-- C6: for every Session and every observed Response, CheckResponse
leaves the stored expiry at the later of the previous expiry and the
response's echoed session timeout, an absent authentication block
counting as the zero timestamp; the expiry never moves backwards. -/
theorem C6_expiry_forward_max (s : Session) (r : Response) :
    (s.CheckResponse (some r)).expires
        = max s.expires (ResponseAuth.getTimeout r.auth)
      ∧ s.expires ≤ (s.CheckResponse (some r)).expires
      ∧ ResponseAuth.getTimeout none = goZeroTime := by
  refine ⟨?_, ?_, rfl⟩ <;>
    · simp only [Session.CheckResponse]
      split_ifs with h <;> simp <;> omega

/-- C2: the spec requires a refresh exactly when now plus the safety
margin passes the stored expiry (refresh at 09:59:30, cached token at
09:58:00 for expiry 10:00 and margin 60s).  The code has the
comparison inverted: with expiry at second 36000 and margin 60, the
query at second 35880 (09:58:00) triggers Refresh, while the query at
second 35970 (09:59:30) returns the cached token without refreshing.
This theorem evaluates the embedded source at the two scenario
instants, exhibiting the divergence. -/
theorem C2_staleness_check_inverted :
    (c2session.GetAuthElement 35880).2.2 = true
      ∧ (c2session.GetAuthElement 35880).2.1 = .ok "newtok"
      ∧ (c2session.GetAuthElement 35970).2.2 = false
      ∧ (c2session.GetAuthElement 35970).2.1 = .ok "tok" :=
  ⟨rfl, rfl, rfl, rfl⟩

/-- C10: a Result with no structured errors and no data element
crashes Result.Decode (nil pointer dereference on r.Data.Payload) for
every non-nil pointer target, instead of returning an error. -/
theorem C10_decode_nil_data_panics (st fn cid : String)
    (dec : List Row → Except String Unit) :
    Result.Decode { status := st, function := fn, controlID := cid,
                    errors := [], data := none } (.ptr dec)
      = .panic "runtime error: invalid memory address or nil pointer dereference" := rfl

/-! ## Helper lemmas -/

theorem toDigitsCore_length_le (b fuel n : Nat) (ds : List Char) :
    ds.length ≤ (Nat.toDigitsCore b fuel n ds).length := by
  induction fuel generalizing n ds with
  | zero => simp [Nat.toDigitsCore]
  | succ f ih =>
    unfold Nat.toDigitsCore
    dsimp only
    split_ifs
    · simp
    · exact le_trans (by simp) (ih _ _)

theorem toDigits_ne_nil (n : Nat) : Nat.toDigits 16 n ≠ [] := by
  have h := toDigitsCore_length_le 16 n (n / 16) [Nat.digitChar (n % 16)]
  unfold Nat.toDigits Nat.toDigitsCore
  dsimp only
  split_ifs
  · simp
  · intro hv
    rw [hv] at h
    simp at h

theorem asString_ne_empty (l : List Char) (h : l ≠ []) : l.asString ≠ "" := by
  intro hv
  apply h
  have : (l.asString).data = ("" : String).data := by rw [hv]
  simpa [List.asString] using this

theorem formatInt16_ne_empty (n : Int) : formatInt16 n ≠ "" := by
  unfold formatInt16
  split_ifs
  · intro hv
    have : ("-" ++ (Nat.toDigits 16 (-n).toNat).asString).data = ("" : String).data := by
      rw [hv]
    simp [List.asString] at this
  · exact asString_ne_empty _ (toDigits_ne_nil _)

/-- C7 counterexample: with a valid service and a cancelled (non-nil)
context, validate reports no error, and the call proceeds to build and
dispatch the request, surfacing the cancellation only as the transport
collaborator's error — contradicting the claim that a cancelled
context yields a validation error before any request is built. -/
theorem C7_cancelled_ctx_passes_validate :
    Service.validate (some svOK) (some true) [fnBlank] = none
      ∧ (Service.ExecWithControl (some svOK) (some true) none [fnBlank] 7
          (fun _ _ => .error (.str "context canceled"))).2
        = some (.str "context canceled") := ⟨rfl, rfl⟩

/-- C7 amended: empty sender identity or secret, a nil Authenticator,
a nil (not merely cancelled) context, and an empty function list each
produce their own distinct validation failure, checked in source
order, and a validation failure makes Exec/ExecWithControl return it
with no response, independently of the transport collaborator. -/
theorem C7_validate_distinct_failures (sv : Service) (ctx : Ctx)
    (f : List Function) (cc : Option ControlConfig) (nowNano : Int)
    (doFn : Ctx → Request → Except GoErr Response) :
    (sv.authenticator = none →
        Service.validate (some sv) ctx f = some (.str "nil Authenticator"))
      ∧ (sv.authenticator ≠ none → (sv.senderID = "" ∨ sv.password = "") →
          Service.validate (some sv) ctx f = some (.str "SendorID/Passowrd is empty"))
      ∧ (sv.authenticator ≠ none → sv.senderID ≠ "" → sv.password ≠ "" → ctx = none →
          Service.validate (some sv) ctx f = some (.str "nil context"))
      ∧ (sv.authenticator ≠ none → sv.senderID ≠ "" → sv.password ≠ "" → ctx ≠ none →
          f = [] → Service.validate (some sv) ctx f = some (.str "no functions specified"))
      ∧ (∀ e, Service.validate (some sv) ctx f = some e →
          Service.ExecWithControl (some sv) ctx cc f nowNano doFn = (none, some e)) := by
  refine ⟨?_, ?_, ?_, ?_, ?_⟩
  · intro h
    simp [Service.validate, h]
  · intro h1 h2
    cases hA : sv.authenticator with
    | none => exact absurd hA h1
    | some a => simp [Service.validate, hA, h2]
  · intro h1 h2 h3 h4
    simp [Service.validate, Option.isNone_iff_eq_none, h1, h2, h3, h4]
  · intro h1 h2 h3 h4 h5
    simp [Service.validate, Option.isNone_iff_eq_none, h1, h2, h3, h4, h5]
  · intro e he
    simp [Service.ExecWithControl, he]

/-- C7 amended witness: the four validation failures and the
no-dispatch behaviour at concrete inputs. -/
theorem C7_validate_distinct_failures_witness :
    Service.validate
        (some { senderID := "S", password := "P", authenticator := none,
                controlIDFunc := none }) (some false) [fnBlank]
      = some (.str "nil Authenticator")
      ∧ Service.validate (some { svOK with senderID := "" }) (some false) [fnBlank]
        = some (.str "SendorID/Passowrd is empty")
      ∧ Service.validate (some svOK) none [fnBlank] = some (.str "nil context")
      ∧ Service.validate (some svOK) (some false) [] = some (.str "no functions specified")
      ∧ Service.ExecWithControl (some svOK) none none [fnBlank] 0
          (fun _ _ => .error (.str "transport"))
        = (none, some (.str "nil context")) :=
  ⟨(C7_validate_distinct_failures _ (some false) [fnBlank] none 0
      (fun _ _ => .error (.str "transport"))).1 rfl,
   (C7_validate_distinct_failures _ (some false) [fnBlank] none 0
      (fun _ _ => .error (.str "transport"))).2.1 (by simp [svOK]) (Or.inl rfl),
   (C7_validate_distinct_failures svOK none [fnBlank] none 0
      (fun _ _ => .error (.str "transport"))).2.2.1
     (by simp [svOK]) (by simp [svOK]) (by simp [svOK]) rfl,
   (C7_validate_distinct_failures svOK (some false) [] none 0
      (fun _ _ => .error (.str "transport"))).2.2.2.1
     (by simp [svOK]) (by simp [svOK]) (by simp [svOK]) (by simp) rfl,
   (C7_validate_distinct_failures svOK none [fnBlank] none 0
      (fun _ _ => .error (.str "transport"))).2.2.2.2 _
     ((C7_validate_distinct_failures svOK none [fnBlank] none 0
        (fun _ _ => .error (.str "transport"))).2.2.1
       (by simp [svOK]) (by simp [svOK]) (by simp [svOK]) rfl)⟩

/-- C5 counterexample: with an explicit ControlConfig carrying an
empty control id, a function with no explicit id of its own is
serialized with an empty controlid even though the service has a
configured id generator — the fallback generator tier claimed for
every function is bypassed (the source comments the merge out at
intacct.go line 403). -/
theorem C5_empty_controlid_sent :
    Service.makeRequest svOK (some false)
        (some { isTransaction := false, isUnique := false,
                includeWhitespace := false, debug := false, controlID := "",
                policyID := "", dtdVersion := "" }) [fnBlank] 99
      = .ok { control := { senderID := "SND", password := "PWD", controlID := "",
                           uniqueID := false, dtdVersion := "3.0", policyID := "",
                           debug := false, includewhitespace := false },
              op := { transaction := false, auth := "AUTH",
                      content := [{ controlID := "", payload := fnBlank }] } } := rfl

/-- C5 amended: each serialized function's controlid is its own
explicit id when non-empty, else the envelope header's id; the header
id is the supplied ControlConfig's id verbatim (possibly empty), and
only for a nil ControlConfig is it produced by the configured
ControlIDFunc or, absent one, the non-empty time-based token — so a
function can be sent with an empty correlation id exactly via an
explicit ControlConfig with an empty id. -/
theorem C5_controlid_assignment (sv : Service) (ctx : Ctx)
    (cc : Option ControlConfig) (fs : List Function) (nowNano : Int)
    (auth : Authenticator) (hAuth : sv.authenticator = some auth)
    (authElem : String) (hElem : auth.getAuthElement ctx = .ok authElem) :
    ∃ req, sv.makeRequest ctx cc fs nowNano = .ok req
      ∧ req.control.controlID = (match cc with
          | none => sv.controlIDFunc.ID ctx nowNano
          | some c => c.controlID)
      ∧ req.op.content = fs.map (fun fn =>
          { controlID := isEmpty fn.controlID req.control.controlID, payload := fn })
      ∧ (∀ fn ∈ fs, fn.controlID ≠ "" →
          isEmpty fn.controlID req.control.controlID = fn.controlID)
      ∧ (∀ fn ∈ fs, fn.controlID = "" →
          isEmpty fn.controlID req.control.controlID = req.control.controlID)
      ∧ (cc = none → sv.controlIDFunc = none →
          req.control.controlID = formatInt16 nowNano ∧ req.control.controlID ≠ "") := by
  refine ⟨{ control := sv.Control ctx cc nowNano,
            op := { transaction := (match cc with
                                    | some c => c.isTransaction
                                    | none => false),
                    auth := authElem,
                    content := fs.map (fun fn =>
                      { controlID := isEmpty fn.controlID
                          (sv.Control ctx cc nowNano).controlID, payload := fn }) } },
          ?_, ?_, ?_, ?_, ?_, ?_⟩
  · simp [Service.makeRequest, hAuth, hElem]
  · cases cc <;> simp [Service.Control]
  · rfl
  · intro fn _ h
    simp [isEmpty, h]
  · intro fn _ h
    simp [isEmpty, h]
  · intro h1 h2
    subst h1
    simp [Service.Control, h2, ControlIDFunc.ID, formatInt16_ne_empty]

/-- C5 amended witness: the assignment at a concrete service, config
and function list. -/
theorem C5_controlid_assignment_witness :
    ∃ req, svOK.makeRequest (some false) none [fnBlank] 99 = .ok req
      ∧ req.control.controlID = (match (none : Option ControlConfig) with
          | none => svOK.controlIDFunc.ID (some false) 99
          | some c => c.controlID)
      ∧ req.op.content = [fnBlank].map (fun fn =>
          { controlID := isEmpty fn.controlID req.control.controlID, payload := fn })
      ∧ (∀ fn ∈ [fnBlank], fn.controlID ≠ "" →
          isEmpty fn.controlID req.control.controlID = fn.controlID)
      ∧ (∀ fn ∈ [fnBlank], fn.controlID = "" →
          isEmpty fn.controlID req.control.controlID = req.control.controlID)
      ∧ ((none : Option ControlConfig) = none → svOK.controlIDFunc = none →
          req.control.controlID = formatInt16 99 ∧ req.control.controlID ≠ "") :=
  C5_controlid_assignment svOK (some false) none [fnBlank] 99
    { getAuthElement := fun _ => .ok "AUTH", endpoint := none } rfl "AUTH" rfl

theorem specRecs_length (rvs : List Dst) (results : List Result) (idx : Nat) :
    (specRecs rvs idx results).length = results.length := by
  induction results generalizing idx with
  | nil => rfl
  | cons res rest ih => simp [specRecs, ih]

theorem decodeLoop_spec (rvs : List Dst) (results : List Result) (idx : Nat)
    (hData : ∀ res ∈ results, res.errors = [] → res.data.isSome) :
    Response.decodeLoop rvs results idx
      = .ok ((specRecs rvs idx results).any (fun e => !e.isEmpty),
             specRecs rvs idx results) := by
  induction results generalizing idx with
  | nil => rfl
  | cons res rest ih =>
    have hRest : ∀ r ∈ rest, r.errors = [] → r.data.isSome :=
      fun r hr => hData r (by simp [hr])
    simp only [Response.decodeLoop]
    rw [ih (idx + 1) hRest]
    by_cases herr : res.errors = []
    · have hD : res.data.isSome := hData res (by simp) herr
      cases hget : rvs[idx]? with
      | none =>
        simp [specRecs, posRecord, herr, hget, List.get?_eq_getElem?]
      | some dst =>
        cases dst with
        | nilIface =>
          simp [specRecs, posRecord, herr, hget, List.get?_eq_getElem?]
        | invalidPtr =>
          simp [specRecs, posRecord, herr, hget, Result.Decode, List.get?_eq_getElem?]
        | ptr dec =>
          cases hdata : res.data with
          | none => rw [hdata] at hD; simp at hD
          | some d =>
            cases hdec : dec d.payload with
            | ok u =>
              simp [specRecs, posRecord, herr, hget, hdata, hdec, Result.Decode,
                    List.get?_eq_getElem?]
            | error e =>
              simp [specRecs, posRecord, herr, hget, hdata, hdec, Result.Decode,
                    List.get?_eq_getElem?]
    · simp [specRecs, posRecord, herr, List.isEmpty_iff]

/-- C1: with no top or operation level failure and data present on
every error-free result (the Result invariant of the data model), the
decode of N results against M ≤ N targets records every position's
own outcome — structured errors or the synthetic decode failure of its
own target — across all N positions (the record list is a position by
position map, so no failure stops later positions and the last target
is always attempted), and the call returns no error exactly when no
position recorded one, else the aggregate keyed by position. -/
theorem C1_decode_isolated (r : Response) (rvs : List Dst)
    (hTop : r.execErr = none)
    (_hLen : rvs.length ≤ r.results.length)
    (hData : ∀ res ∈ r.results, res.errors = [] → res.data.isSome) :
    Response.Decode r rvs
      = .ok (if (specRecs rvs 0 r.results).all (fun e => e.isEmpty)
             then none
             else some (.results (specRecs rvs 0 r.results)))
      ∧ (specRecs rvs 0 r.results).length = r.results.length := by
  refine ⟨?_, specRecs_length rvs r.results 0⟩
  simp only [Response.Decode, hTop]
  rw [decodeLoop_spec rvs r.results 0 hData]
  rw [List.all_eq_not_any_not]
  cases hA : (specRecs rvs 0 r.results).any (fun e => !e.isEmpty) <;> simp [hA]

/-- C1 witness: three results (ok, structured error, ok) against two
targets, the second nil-equivalent by absence; the aggregate singles
out position 1 and the decode runs over all three positions. -/
theorem C1_decode_isolated_witness :
    ({ auth := none, errorMsg := none, opError := none,
       results := [
        { status := "success", function := "read", controlID := "a",
          errors := [],
          data := some { listType := "x", count := 1, totalCount := 1,
                         numRemaining := 0, resultID := "", payload := ["p1"] } },
        { status := "failure", function := "read", controlID := "b",
          errors := [{ errorNo := "123", description := "bad",
                       description2 := "", correction := "", err := none }],
          data := none },
        { status := "success", function := "read", controlID := "c",
          errors := [],
          data := some { listType := "x", count := 1, totalCount := 1,
                         numRemaining := 0, resultID := "", payload := ["p2"] } }] } :
        Response).execErr = none
      ∧ Response.Decode
          { auth := none, errorMsg := none, opError := none,
            results := [
             { status := "success", function := "read", controlID := "a",
               errors := [],
               data := some { listType := "x", count := 1, totalCount := 1,
                              numRemaining := 0, resultID := "", payload := ["p1"] } },
             { status := "failure", function := "read", controlID := "b",
               errors := [{ errorNo := "123", description := "bad",
                            description2 := "", correction := "", err := none }],
               data := none },
             { status := "success", function := "read", controlID := "c",
               errors := [],
               data := some { listType := "x", count := 1, totalCount := 1,
                              numRemaining := 0, resultID := "", payload := ["p2"] } }] }
          [.ptr (fun _ => .ok ()), .nilIface]
        = .ok (if (specRecs [.ptr (fun _ => .ok ()), .nilIface] 0
                    [
                     { status := "success", function := "read", controlID := "a",
                       errors := [],
                       data := some { listType := "x", count := 1, totalCount := 1,
                                      numRemaining := 0, resultID := "", payload := ["p1"] } },
                     { status := "failure", function := "read", controlID := "b",
                       errors := [{ errorNo := "123", description := "bad",
                                    description2 := "", correction := "", err := none }],
                       data := none },
                     { status := "success", function := "read", controlID := "c",
                       errors := [],
                       data := some { listType := "x", count := 1, totalCount := 1,
                                      numRemaining := 0, resultID := "", payload := ["p2"] } }]).all
                    (fun e => e.isEmpty)
               then none
               else some (.results (specRecs [.ptr (fun _ => .ok ()), .nilIface] 0
                    [
                     { status := "success", function := "read", controlID := "a",
                       errors := [],
                       data := some { listType := "x", count := 1, totalCount := 1,
                                      numRemaining := 0, resultID := "", payload := ["p1"] } },
                     { status := "failure", function := "read", controlID := "b",
                       errors := [{ errorNo := "123", description := "bad",
                                    description2 := "", correction := "", err := none }],
                       data := none },
                     { status := "success", function := "read", controlID := "c",
                       errors := [],
                       data := some { listType := "x", count := 1, totalCount := 1,
                                      numRemaining := 0, resultID := "", payload := ["p2"] } }]))) :=
  ⟨rfl, by
    refine (C1_decode_isolated _ _ ?_ ?_ ?_).1
    · rfl
    · simp
    · intro res hres herr
      fin_cases hres <;> simp_all⟩

/-- C3: for both pagination families, a first page reporting
remaining=2 followed by a page reporting remaining=0 issues exactly
two Executor calls, the accumulator ends as the original contents
followed by both pages' rows (length the sum of both row counts), and
the continuation call carries the server continuation token (read
family: a readMore with the returned resultId) or the original query
with its offset advanced by the page size (query family). -/
theorem C3_pagination_two_pages (rows1 rows2 : List Row) (rid rid2 : String)
    (acc0 : List Row) (obj qry lt1 lt2 : String) (cnt1 tot1 cnt2 tot2 : Int)
    (st1 st2 fu1 fu2 cid1 cid2 : String) (q : Query) :
    let page1 : Response :=
      { auth := none, errorMsg := none, opError := none,
        results := [{ status := st1, function := fu1, controlID := cid1,
                      errors := [],
                      data := some { listType := lt1, count := cnt1,
                                     totalCount := tot1, numRemaining := 2,
                                     resultID := rid, payload := rows1 } }] }
    let page2 : Response :=
      { auth := none, errorMsg := none, opError := none,
        results := [{ status := st2, function := fu2, controlID := cid2,
                      errors := [],
                      data := some { listType := lt2, count := cnt2,
                                     totalCount := tot2, numRemaining := 0,
                                     resultID := rid2, payload := rows2 } }] }
    (ReadByQuery obj qry).GetAll [.ok page1, .ok page2] acc0
        = .ok (none, acc0 ++ rows1 ++ rows2, [ReadByQuery obj qry, ReadMore rid])
      ∧ q.GetAll [.ok page1, .ok page2] acc0
        = .ok (none, acc0 ++ rows1 ++ rows2,
               [q, { q with offset := q.offset +
                      (if q.pageSz = 0 then 100 else q.pageSz) }]) := by
  constructor
  · simp [Reader.GetAll, ReadByQuery, Reader.GetAllLoop, Response.DecodeSlice,
          Response.decodeSliceLoop, Response.execErr, ReadMore]
  · simp [Query.GetAll, Query.GetAllLoop, Response.DecodeSlice,
          Response.decodeSliceLoop, Response.execErr]

@[simp] theorem anyElem_nil (n : String) : XmlNode.anyElem n [] = false := rfl

@[simp] theorem anyElem_cons (n : String) (c : XmlNode) (cs : List XmlNode) :
    XmlNode.anyElem n (c :: cs) = (XmlNode.hasElem n c || XmlNode.anyElem n cs) := rfl

@[simp] theorem hasElem_text (n s : String) : XmlNode.hasElem n (.text s) = false := rfl

theorem hasElem_elem (n nm : String) (attrs : List (String × String))
    (cs : List XmlNode) :
    XmlNode.hasElem n (.elem nm attrs cs) = (decide (nm = n) || XmlNode.anyElem n cs) := rfl

@[simp] theorem anyElem_append (n : String) (a b : List XmlNode) :
    XmlNode.anyElem n (a ++ b) = (XmlNode.anyElem n a || XmlNode.anyElem n b) := by
  induction a with
  | nil => simp
  | cons c cs ih => simp [ih, Bool.or_assoc]

theorem anyElem_fields_filter (fs : List String) :
    XmlNode.anyElem "filter" (fs.map fun f => XmlNode.elem "field" [] [.text f]) = false := by
  induction fs with
  | nil => simp
  | cons f fs ih => simp [hasElem_elem, ih]

theorem anyElem_orders_filter (os : List OrderBy) :
    XmlNode.anyElem "filter" (os.map OrderBy.marshalXML) = false := by
  induction os with
  | nil => simp
  | cons o os ih =>
    simp [OrderBy.marshalXML, hasElem_elem, ih]
    split_ifs <;> simp [hasElem_elem]

theorem select_no_filter (s : Select) :
    XmlNode.hasElem "filter" s.marshalXML = false := by
  simp only [Select.marshalXML, hasElem_elem, anyElem_append]
  rw [anyElem_fields_filter]
  split_ifs <;> simp [hasElem_elem]

theorem sort_no_filter (s : QuerySort) :
    XmlNode.hasElem "filter" s.marshalXML = false := by
  simp only [QuerySort.marshalXML, hasElem_elem]
  rw [anyElem_orders_filter]
  simp

theorem options_no_filter (o : QueryOptions) :
    XmlNode.hasElem "filter" o.marshalXML = false := by
  simp only [QueryOptions.marshalXML, hasElem_elem, anyElem_append]
  split_ifs <;> simp [hasElem_elem]

/-- C9: a query whose filter clause is empty (the Filter field unset,
as when no criteria were ever attached) serializes with no filter
element anywhere in the document; likewise an empty FilterVals list
emits no value elements at all. -/
theorem C9_empty_filter_not_serialized (q : Query) (h : q.filter = none) :
    XmlNode.hasElem "filter" q.marshalXML = false
      ∧ FilterVals.MarshalXML [] "value" = [] := by
  refine ⟨?_, rfl⟩
  cases hS : q.sort <;> cases hO : q.options <;>
    · simp [Query.marshalXML, h, hS, hO, hasElem_elem, select_no_filter,
            sort_no_filter, options_no_filter]
      first
      | done
      | (repeat' constructor) <;> (split_ifs <;> simp [hasElem_elem])

/-- C9 witness: a concrete query with no filter criteria. -/
theorem C9_empty_filter_not_serialized_witness :
    XmlNode.hasElem "filter"
        (Query.marshalXML
          { object := "PROJECT",
            select := { fields := ["RECORDNO", "NAME"], count := "", avg := "",
                        min := "", max := "", sum := "" },
            filter := none, sort := none, options := none, pageSz := 0,
            offset := 0, transactionType := "", controlID := "" }) = false
      ∧ FilterVals.MarshalXML [] "value" = [] :=
  C9_empty_filter_not_serialized _ rfl

theorem mapGet_mapSet_same (rm : RMap) (k : String) (v : RVal) :
    mapGet (mapSet rm k v) k = some v := by
  induction rm with
  | nil => simp [mapSet, mapGet]
  | cons kv rest ih =>
    by_cases h : kv.1 = k <;> simp [mapSet, mapGet, h, ih]

theorem mapGet_mapSet_ne (rm : RMap) (k1 k2 : String) (v : RVal) (h : k1 ≠ k2) :
    mapGet (mapSet rm k1 v) k2 = mapGet rm k2 := by
  induction rm with
  | nil => simp [mapSet, mapGet, h]
  | cons kv rest ih =>
    rcases kv with ⟨k, v0⟩
    by_cases h2 : k = k1
    · subst h2
      simp only [mapSet, if_pos rfl, mapGet]
      rw [if_neg h, if_neg h]
    · simp only [mapSet, if_neg h2, mapGet]
      by_cases h3 : k = k2
      · rw [if_pos h3, if_pos h3]
      · rw [if_neg h3, if_neg h3, ih]

theorem newElementRM_get (rm : RMap) (t : String) (el : RMap) :
    mapGet (newElementRM rm t el) t = stepVal (mapGet rm t) el := by
  unfold newElementRM stepVal
  cases hg : mapGet rm t with
  | none =>
    cases hs : singleText el with
    | none =>
      dsimp only
      split_ifs <;> simp [mapGet_mapSet_same, hg]
    | some v => simp [mapGet_mapSet_same]
  | some val =>
    cases val with
    | str s =>
      cases hs : singleText el with
      | none => simp [hg]
      | some v => simp [mapGet_mapSet_same]
    | strs ss =>
      cases hs : singleText el with
      | none => simp [hg]
      | some v => simp [mapGet_mapSet_same]
    | node m => simp [mapGet_mapSet_same]
    | nodes ms => simp [mapGet_mapSet_same]

theorem newElementRM_get_other (rm : RMap) (t1 t2 : String) (el : RMap)
    (h : t1 ≠ t2) :
    mapGet (newElementRM rm t1 el) t2 = mapGet rm t2 := by
  unfold newElementRM
  cases hg : mapGet rm t1 with
  | none =>
    cases hs : singleText el with
    | none =>
      dsimp only
      split_ifs <;> simp [mapGet_mapSet_ne _ _ _ _ h]
    | some v => simp [mapGet_mapSet_ne _ _ _ _ h]
  | some val =>
    cases val with
    | str s =>
      cases hs : singleText el with
      | none => simp
      | some v => simp [mapGet_mapSet_ne _ _ _ _ h]
    | strs ss =>
      cases hs : singleText el with
      | none => simp
      | some v => simp [mapGet_mapSet_ne _ _ _ _ h]
    | node m => simp [mapGet_mapSet_ne _ _ _ _ h]
    | nodes ms => simp [mapGet_mapSet_ne _ _ _ _ h]

theorem foldChildren_get (t : String) (ht : t ≠ "") (cs : Xml) (rm : RMap) :
    mapGet (foldChildren rm cs) t = foldVal (mapGet rm t) (extractT t cs) := by
  induction cs generalizing rm with
  | nil => rfl
  | text s rest ih =>
    show mapGet (foldChildren _ rest) t = _
    rw [ih]
    congr 1
    split_ifs with hw
    · rfl
    · exact mapGet_mapSet_ne rm "" t (RVal.str s) (fun he => ht he.symm)
  | elem tag attrs children rest ihc ih =>
    show mapGet
        (foldChildren (newElementRM rm tag (foldChildren (attrsInit attrs) children)) rest) t
      = _
    rw [ih]
    by_cases htag : tag = t
    · subst htag
      rw [newElementRM_get]
      simp [extractT, foldVal, decodeElem]
    · rw [newElementRM_get_other rm tag t _ htag]
      simp [extractT, htag]

theorem attrsInit_get_none (attrs : List (String × String)) (t : String)
    (hAt : ∀ s, t ≠ "@" ++ s) :
    mapGet (attrsInit attrs) t = none := by
  unfold attrsInit
  suffices h : ∀ rm : RMap, mapGet rm t = none →
      mapGet (attrs.foldl (fun rm a => mapSet rm ("@" ++ a.1) (.str a.2)) rm) t = none by
    exact h [] rfl
  induction attrs with
  | nil => intro rm h; exact h
  | cons a rest ih =>
    intro rm h
    exact ih _ (by rw [mapGet_mapSet_ne _ _ _ _ (fun he => hAt a.1 he.symm)]; exact h)

theorem decodeElem_get (t : String) (ht : t ≠ "") (hAt : ∀ s, t ≠ "@" ++ s)
    (attrs : List (String × String)) (cs : Xml) :
    mapGet (decodeElem attrs cs) t = foldVal none (extractT t cs) := by
  unfold decodeElem
  rw [foldChildren_get t ht, attrsInit_get_none attrs t hAt]

theorem foldVal_strs (ss : List String) (texts : List String) :
    foldVal (some (.strs ss)) (texts.map (fun s => ([("", RVal.str s)] : RMap)))
      = some (.strs (ss ++ texts)) := by
  induction texts generalizing ss with
  | nil => simp [foldVal]
  | cons s rest ih =>
    show foldVal (stepVal _ _) _ = _
    rw [show stepVal (some (.strs ss)) ([("", RVal.str s)] : RMap)
          = some (.strs (ss ++ [s])) by simp [stepVal, singleText]]
    rw [ih]
    simp

theorem foldVal_nodes (ms : List RMap) (els : List RMap) :
    foldVal (some (.nodes ms)) els = some (.nodes (ms ++ els)) := by
  induction els generalizing ms with
  | nil => simp [foldVal]
  | cons el rest ih =>
    show foldVal (stepVal _ _) _ = _
    rw [show stepVal (some (.nodes ms)) el = some (.nodes (ms ++ [el])) from rfl]
    rw [ih]
    simp

/-- C4 counterexample: under one parent the tag a occurs three times —
text x, then a structured occurrence (an attribute), then text w.  The
structured occurrence is dropped by the string branch of the
newElement switch, so the tag ends as a two element string sequence,
not a three element sequence as the claim requires for k = 3. -/
theorem C4_mixed_repeats_dropped :
    mapGet (decodeElem []
        (.elem "a" [] (.text "x" .nil)
          (.elem "a" [("y", "1")] .nil
            (.elem "a" [] (.text "w" .nil) .nil)))) "a"
      = some (.strs ["x", "w"]) := rfl

/-- C4 amended: k repeats of a tag yield a k element sequence in
document order when the occurrences are uniform — all textual-only
(folded as strings: the first a scalar, the second promoting to a two
element sequence, each later one appended), or led by a structured
occurrence (after which every occurrence, structured or textual, is
appended) — but a structured occurrence arriving over a textual entry
(and an empty occurrence over a textual or absent entry) is dropped,
so mixed repeats can yield fewer than k entries.  Unconditionally, a
tag holding a structured node or node sequence stays one under any
later occurrence, textual or not: it never reverts to a scalar
string. -/
theorem C4_uniform_promotion (attrs : List (String × String)) (cs : Xml)
    (t : String) (ht : t ≠ "") (hAt : ∀ s, t ≠ "@" ++ s) :
    (∀ texts : List String,
        extractT t cs = texts.map (fun s => ([("", RVal.str s)] : RMap)) →
        2 ≤ texts.length →
        mapGet (decodeElem attrs cs) t = some (.strs texts))
      ∧ (∀ e1 rest, extractT t cs = e1 :: rest → singleText e1 = none →
          e1 ≠ [] → mapGet (decodeElem attrs cs) t = some (.nodes (e1 :: rest))
            ∨ (rest = [] ∧ mapGet (decodeElem attrs cs) t = some (.node e1)))
      ∧ (∀ rm el m, mapGet rm t = some (.node m) →
          mapGet (newElementRM rm t el) t = some (.nodes [m, el]))
      ∧ (∀ rm el ms, mapGet rm t = some (.nodes ms) →
          mapGet (newElementRM rm t el) t = some (.nodes (ms ++ [el]))) := by
  refine ⟨?_, ?_, ?_, ?_⟩
  · intro texts hex hlen
    rw [decodeElem_get t ht hAt, hex]
    cases texts with
    | nil => simp at hlen
    | cons s1 rest =>
      cases rest with
      | nil => simp at hlen
      | cons s2 rest2 =>
        show foldVal (stepVal none _) _ = _
        rw [show stepVal none ([("", RVal.str s1)] : RMap) = some (.str s1)
              by simp [stepVal, singleText]]
        show foldVal (stepVal _ _) _ = _
        rw [show stepVal (some (.str s1)) ([("", RVal.str s2)] : RMap)
              = some (.strs [s1, s2]) by simp [stepVal, singleText]]
        rw [foldVal_strs]
        simp
  · intro e1 rest hex hsingle hne
    rw [decodeElem_get t ht hAt, hex]
    have hstep : stepVal none e1 = some (.node e1) := by
      simp [stepVal, hsingle, List.length_pos, hne]
    cases rest with
    | nil =>
      right
      refine ⟨rfl, ?_⟩
      show foldVal (stepVal none e1) [] = _
      rw [hstep]
      rfl
    | cons e2 rest2 =>
      left
      show foldVal (stepVal none e1) _ = _
      rw [hstep]
      show foldVal (stepVal _ _) _ = _
      rw [show stepVal (some (.node e1)) e2 = some (.nodes [e1, e2]) from rfl]
      rw [foldVal_nodes]
      simp
  · intro rm el m hm
    rw [newElementRM_get, hm]
    rfl
  · intro rm el ms hms
    rw [newElementRM_get, hms]
    rfl

/-- C4 amended witness: three textual repeats of one tag produce the
three element sequence in document order. -/
theorem C4_uniform_promotion_witness :
    mapGet (decodeElem []
        (.elem "b" [] (.text "s1" .nil)
          (.elem "b" [] (.text "s2" .nil)
            (.elem "b" [] (.text "s3" .nil) .nil)))) "b"
      = some (.strs ["s1", "s2", "s3"]) :=
  (C4_uniform_promotion []
      (.elem "b" [] (.text "s1" .nil)
        (.elem "b" [] (.text "s2" .nil)
          (.elem "b" [] (.text "s3" .nil) .nil))) "b" (by simp)
      (by
        intro s hs
        apply_fun String.data at hs
        simp at hs)).1
    ["s1", "s2", "s3"] rfl (by simp)
theorem digitChar_spec (k : Nat) :
    (digitChar k).isDigit = true ∧ dVal (digitChar k) = Int.ofNat (k % 10)
      ∧ digitChar k ≠ '+' ∧ digitChar k ≠ '-'
      ∧ (digitChar k).toNat - 48 = k % 10 := by
  have h : k % 10 < 10 := Nat.mod_lt _ (by norm_num)
  unfold digitChar dVal
  interval_cases h2 : k % 10 <;> simp_all

theorem daysBeforeYear_nonneg (y : Int) (h : 1 ≤ y) : 0 ≤ daysBeforeYear y := by
  unfold daysBeforeYear
  rw [Int.fdiv_eq_ediv _ (by norm_num), Int.fdiv_eq_ediv _ (by norm_num),
      Int.fdiv_eq_ediv _ (by norm_num)]
  omega

theorem daysBeforeYear_ge_365 (y : Int) (h : 2 ≤ y) : 365 ≤ daysBeforeYear y := by
  unfold daysBeforeYear
  rw [Int.fdiv_eq_ediv _ (by norm_num), Int.fdiv_eq_ediv _ (by norm_num),
      Int.fdiv_eq_ediv _ (by norm_num)]
  omega

theorem daysBeforeYear_one : daysBeforeYear 1 = 0 := by norm_num [daysBeforeYear]

theorem daysIn_le_31 (m y : Int) (h1 : 1 ≤ m) (h2 : m ≤ 12) : daysIn m y ≤ 31 := by
  unfold daysIn
  interval_cases m <;> split_ifs <;> norm_num [daysBeforeMonthTable]

theorem goDate_zero_iff (y m d : Int) (hy : 1 ≤ y) (hm1 : 1 ≤ m) (hm2 : m ≤ 12)
    (hd1 : 1 ≤ d) (hd2 : d ≤ daysIn m y) :
    (goDate y m d = 0 ↔ (y = 1 ∧ m = 1 ∧ d = 1)) := by
  unfold goDate
  have hf : Int.fdiv (m - 1) 12 = 0 := by
    rw [Int.fdiv_eq_ediv _ (by norm_num)]
    omega
  have hg : Int.fmod (m - 1) 12 = m - 1 := by
    rw [Int.fmod_eq_emod _ (by norm_num)]
    omega
  show daysBeforeYear (y + (m - 1).fdiv 12)
      + daysBeforeMonth ((m - 1).fmod 12 + 1) (goIsLeap (y + (m - 1).fdiv 12)) + (d - 1)
      = 0 ↔ _
  rw [hf, hg]
  simp only [add_zero]
  have hmeq : m - 1 + 1 = m := by ring
  rw [hmeq]
  interval_cases m <;>
    simp_all [daysBeforeMonth, daysBeforeMonthTable, daysIn, goIsLeap] <;>
    (try split_ifs at *) <;>
    (rcases eq_or_lt_of_le hy with h | h
     · cases h
       simp [daysBeforeYear_one]
       omega
     · have h365 := daysBeforeYear_ge_365 y (by omega)
       have hnn := daysBeforeYear_nonneg y hy
       omega)

theorem digitsVal_pad4 (y : Nat) : digitsVal (pad4 y).toList = some (y % 10000) := by
  obtain ⟨d1, _, _, _, e1⟩ := digitChar_spec (y / 1000)
  obtain ⟨d2, _, _, _, e2⟩ := digitChar_spec (y / 100)
  obtain ⟨d3, _, _, _, e3⟩ := digitChar_spec (y / 10)
  obtain ⟨d4, _, _, _, e4⟩ := digitChar_spec y
  show digitsVal [digitChar (y / 1000), digitChar (y / 100), digitChar (y / 10),
                  digitChar y] = _
  unfold digitsVal
  dsimp only
  rw [if_pos (by simp [d1, d2, d3, d4])]
  simp only [List.foldl]
  congr 1
  omega

theorem digitsVal_pad2 (n : Nat) : digitsVal (pad2 n).toList = some (n % 100) := by
  obtain ⟨d1, _, _, _, e1⟩ := digitChar_spec (n / 10)
  obtain ⟨d2, _, _, _, e2⟩ := digitChar_spec n
  show digitsVal [digitChar (n / 10), digitChar n] = _
  unfold digitsVal
  dsimp only
  rw [if_pos (by simp [d1, d2])]
  simp only [List.foldl]
  congr 1
  omega

theorem goAtoi_pad4 (y : Nat) (hy : y ≤ 9999) : goAtoi (pad4 y) = Int.ofNat y := by
  obtain ⟨_, _, p1, m1, _⟩ := digitChar_spec (y / 1000)
  have hd := digitsVal_pad4 y
  show goAtoi ([digitChar (y / 1000), digitChar (y / 100), digitChar (y / 10),
                digitChar y].asString) = _
  unfold goAtoi
  simp only [List.asString, String.toList]
  rw [if_neg p1, if_neg m1]
  rw [show digitsVal [digitChar (y / 1000), digitChar (y / 100), digitChar (y / 10),
        digitChar y] = some (y % 10000) from hd]
  show clampInt64 (Int.ofNat (y % 10000)) = Int.ofNat y
  unfold clampInt64
  simp only [Int.ofNat_eq_coe]
  rw [if_neg (by omega), if_neg (by omega)]
  congr 1
  omega

theorem goAtoi_pad2 (n : Nat) (hn : n ≤ 99) : goAtoi (pad2 n) = Int.ofNat n := by
  obtain ⟨_, _, p1, m1, _⟩ := digitChar_spec (n / 10)
  have hd := digitsVal_pad2 n
  show goAtoi ([digitChar (n / 10), digitChar n].asString) = _
  unfold goAtoi
  simp only [List.asString, String.toList]
  rw [if_neg p1, if_neg m1]
  rw [show digitsVal [digitChar (n / 10), digitChar n] = some (n % 100) from hd]
  show clampInt64 (Int.ofNat (n % 100)) = Int.ofNat n
  unfold clampInt64
  simp only [Int.ofNat_eq_coe]
  rw [if_neg (by omega), if_neg (by omega)]
  congr 1
  omega

theorem parseYMD_pad (y m d : Nat) (hy : y ≤ 9999) (hm1 : 1 ≤ m) (hm2 : m ≤ 12)
    (hd1 : 1 ≤ d) (hd31 : d ≤ 31) (hd2 : (d : Int) ≤ daysIn (m : Int) (y : Int)) :
    parseYMD (pad4 y ++ "-" ++ pad2 m ++ "-" ++ pad2 d)
      = some ((y : Int), (m : Int), (d : Int)) := by
  obtain ⟨dy1, vy1, _, _, _⟩ := digitChar_spec (y / 1000)
  obtain ⟨dy2, vy2, _, _, _⟩ := digitChar_spec (y / 100)
  obtain ⟨dy3, vy3, _, _, _⟩ := digitChar_spec (y / 10)
  obtain ⟨dy4, vy4, _, _, _⟩ := digitChar_spec y
  obtain ⟨dm1, vm1, _, _, _⟩ := digitChar_spec (m / 10)
  obtain ⟨dm2, vm2, _, _, _⟩ := digitChar_spec m
  obtain ⟨dd1, vd1, _, _, _⟩ := digitChar_spec (d / 10)
  obtain ⟨dd2, vd2, _, _, _⟩ := digitChar_spec d
  have htl : (pad4 y ++ "-" ++ pad2 m ++ "-" ++ pad2 d).toList
      = [digitChar (y / 1000), digitChar (y / 100), digitChar (y / 10), digitChar y,
         '-', digitChar (m / 10), digitChar m, '-', digitChar (d / 10), digitChar d] := by
    simp [pad4, pad2, List.asString, String.toList]
  unfold parseYMD
  rw [htl]
  dsimp only
  rw [if_pos ⟨rfl, rfl, dy1, dy2, dy3, dy4, dm1, dm2, dd1, dd2⟩]
  have hY : ((dVal (digitChar (y / 1000)) * 10 + dVal (digitChar (y / 100))) * 10
      + dVal (digitChar (y / 10))) * 10 + dVal (digitChar y) = (y : Int) := by
    rw [vy1, vy2, vy3, vy4]
    simp only [Int.ofNat_eq_coe]
    omega
  have hM : dVal (digitChar (m / 10)) * 10 + dVal (digitChar m) = (m : Int) := by
    rw [vm1, vm2]
    simp only [Int.ofNat_eq_coe]
    omega
  have hD : dVal (digitChar (d / 10)) * 10 + dVal (digitChar d) = (d : Int) := by
    rw [vd1, vd2]
    simp only [Int.ofNat_eq_coe]
    omega
  rw [hY, hM, hD]
  rw [if_pos ⟨by exact_mod_cast hm1, by exact_mod_cast hm2, by exact_mod_cast hd1, hd2⟩]

theorem parseMDY_pad (y m d : Nat) (hy : y ≤ 9999) (hm1 : 1 ≤ m) (hm2 : m ≤ 12)
    (hd1 : 1 ≤ d) (hd31 : d ≤ 31) (hd2 : (d : Int) ≤ daysIn (m : Int) (y : Int)) :
    parseMDY (pad2 m ++ "-" ++ pad2 d ++ "-" ++ pad4 y)
      = some ((y : Int), (m : Int), (d : Int)) := by
  obtain ⟨dy1, vy1, _, _, _⟩ := digitChar_spec (y / 1000)
  obtain ⟨dy2, vy2, _, _, _⟩ := digitChar_spec (y / 100)
  obtain ⟨dy3, vy3, _, _, _⟩ := digitChar_spec (y / 10)
  obtain ⟨dy4, vy4, _, _, _⟩ := digitChar_spec y
  obtain ⟨dm1, vm1, _, _, _⟩ := digitChar_spec (m / 10)
  obtain ⟨dm2, vm2, _, _, _⟩ := digitChar_spec m
  obtain ⟨dd1, vd1, _, _, _⟩ := digitChar_spec (d / 10)
  obtain ⟨dd2, vd2, _, _, _⟩ := digitChar_spec d
  have htl : (pad2 m ++ "-" ++ pad2 d ++ "-" ++ pad4 y).toList
      = [digitChar (m / 10), digitChar m, '-', digitChar (d / 10), digitChar d, '-',
         digitChar (y / 1000), digitChar (y / 100), digitChar (y / 10), digitChar y] := by
    simp [pad4, pad2, List.asString, String.toList]
  unfold parseMDY
  rw [htl]
  dsimp only
  rw [if_pos ⟨rfl, rfl, dy1, dy2, dy3, dy4, dm1, dm2, dd1, dd2⟩]
  have hY : ((dVal (digitChar (y / 1000)) * 10 + dVal (digitChar (y / 100))) * 10
      + dVal (digitChar (y / 10))) * 10 + dVal (digitChar y) = (y : Int) := by
    rw [vy1, vy2, vy3, vy4]
    simp only [Int.ofNat_eq_coe]
    omega
  have hM : dVal (digitChar (m / 10)) * 10 + dVal (digitChar m) = (m : Int) := by
    rw [vm1, vm2]
    simp only [Int.ofNat_eq_coe]
    omega
  have hD : dVal (digitChar (d / 10)) * 10 + dVal (digitChar d) = (d : Int) := by
    rw [vd1, vd2]
    simp only [Int.ofNat_eq_coe]
    omega
  rw [hY, hM, hD]
  rw [if_pos ⟨by exact_mod_cast hm1, by exact_mod_cast hm2, by exact_mod_cast hd1, hd2⟩]

theorem parseYMD_mdy_none (y m d : Nat) :
    parseYMD (pad2 m ++ "-" ++ pad2 d ++ "-" ++ pad4 y) = none := by
  have htl : (pad2 m ++ "-" ++ pad2 d ++ "-" ++ pad4 y).toList
      = [digitChar (m / 10), digitChar m, '-', digitChar (d / 10), digitChar d, '-',
         digitChar (y / 1000), digitChar (y / 100), digitChar (y / 10), digitChar y] := by
    simp [pad4, pad2, List.asString, String.toList]
  unfold parseYMD
  rw [htl]
  dsimp only
  rw [if_neg]
  intro h
  exact (digitChar_spec d).2.2.2.1 h.1

theorem mapGet_single (k : String) (v : RVal) : mapGet [(k, v)] k = some v := by
  simp [mapGet]

/-- C8 counterexample: the calendar date 0001-01-01 is the zero value
of the decoded time, so the accessor returns nil for it under all
three shapes — even though the structured shape has every numeric
component positive and both strings match their layouts, where the
claim promises the denoted calendar date. -/
theorem C8_zero_date_returns_none :
    RMap.Date [("D", .node [("Year", .str "1"), ("Month", .str "1"),
                            ("Day", .str "1")])] "D" = none
      ∧ RMap.Date [("D", .str "0001-01-01")] "D" = none
      ∧ RMap.Date [("D", .str "01-01-0001")] "D" = none := ⟨rfl, rfl, rfl⟩

/-- C8 amended: for every calendar-valid date with a four digit year
other than 0001-01-01, the three accepted source shapes — a structured
node with numeric Year/Month/Day entries, a YYYY-MM-DD string and a
MM-DD-YYYY string — all produce that same calendar date; the accessor
returns nil (never a zero date, never an error) when the entry is
absent, when a structured numeric component is non positive, when the
value is neither a node nor a string, when a string matches neither
layout, and also for the one date whose decoded time is the zero value
(0001-01-01). -/
theorem C8_date_three_shapes (nm : String) (y m d : Nat)
    (hy1 : 1 ≤ y) (hy2 : y ≤ 9999) (hm1 : 1 ≤ m) (hm2 : m ≤ 12) (hd1 : 1 ≤ d)
    (hd2 : (d : Int) ≤ daysIn (m : Int) (y : Int))
    (hnz : ¬(y = 1 ∧ m = 1 ∧ d = 1)) :
    RMap.Date [(nm, .node [("Year", .str (pad4 y)), ("Month", .str (pad2 m)),
                           ("Day", .str (pad2 d))])] nm
        = some (goDate (y : Int) (m : Int) (d : Int))
      ∧ RMap.Date [(nm, .str (pad4 y ++ "-" ++ pad2 m ++ "-" ++ pad2 d))] nm
        = some (goDate (y : Int) (m : Int) (d : Int))
      ∧ RMap.Date [(nm, .str (pad2 m ++ "-" ++ pad2 d ++ "-" ++ pad4 y))] nm
        = some (goDate (y : Int) (m : Int) (d : Int))
      ∧ RMap.Date [] nm = none
      ∧ (∀ sy sm sd : String,
          goAtoi sy ≤ 0 ∨ goAtoi sm ≤ 0 ∨ goAtoi sd ≤ 0 →
          RMap.Date [(nm, .node [("Year", .str sy), ("Month", .str sm),
                                 ("Day", .str sd)])] nm = none)
      ∧ (∀ ss, RMap.Date [(nm, .strs ss)] nm = none)
      ∧ (∀ s, parseYMD s = none → parseMDY s = none →
          RMap.Date [(nm, .str s)] nm = none) := by
  have hd31 : d ≤ 31 := by
    have := daysIn_le_31 (m : Int) (y : Int) (by exact_mod_cast hm1) (by exact_mod_cast hm2)
    omega
  have hzero : ¬ goDate (y : Int) (m : Int) (d : Int) = 0 := by
    rw [goDate_zero_iff _ _ _ (by exact_mod_cast hy1) (by exact_mod_cast hm1)
          (by exact_mod_cast hm2) (by exact_mod_cast hd1) hd2]
    intro h
    exact hnz ⟨by exact_mod_cast h.1, by exact_mod_cast h.2.1, by exact_mod_cast h.2.2⟩
  refine ⟨?_, ?_, ?_, ?_, ?_, ?_, ?_⟩
  · unfold RMap.Date
    rw [mapGet_single]
    dsimp only
    rw [show List.foldl ymdStep ((-1, -1, -1) : Int × Int × Int)
          [("Year", RVal.str (pad4 y)), ("Month", RVal.str (pad2 m)),
           ("Day", RVal.str (pad2 d))]
        = (goAtoi (pad4 y), goAtoi (pad2 m), goAtoi (pad2 d)) from rfl]
    rw [goAtoi_pad4 y hy2, goAtoi_pad2 m (by omega), goAtoi_pad2 d (by omega)]
    dsimp only
    simp only [Int.ofNat_eq_coe]
    have hc : ((y : Int) > 0 ∧ (m : Int) > 0 ∧ (d : Int) > 0) :=
      ⟨by omega, by omega, by omega⟩
    rw [if_pos hc]
    rw [if_neg hzero]
  · unfold RMap.Date
    rw [mapGet_single]
    dsimp only
    rw [parseYMD_pad y m d hy2 hm1 hm2 hd1 hd31 hd2]
    rw [if_neg hzero]
  · unfold RMap.Date
    rw [mapGet_single]
    dsimp only
    rw [parseYMD_mdy_none y m d]
    rw [parseMDY_pad y m d hy2 hm1 hm2 hd1 hd31 hd2]
    rw [if_neg hzero]
  · rfl
  · intro sy sm sd hneg
    unfold RMap.Date
    rw [mapGet_single]
    dsimp only
    rw [show List.foldl ymdStep ((-1, -1, -1) : Int × Int × Int)
          [("Year", RVal.str sy), ("Month", RVal.str sm), ("Day", RVal.str sd)]
        = (goAtoi sy, goAtoi sm, goAtoi sd) from rfl]
    dsimp only
    have hcn : ¬(goAtoi sy > 0 ∧ goAtoi sm > 0 ∧ goAtoi sd > 0) := by omega
    rw [if_neg hcn]
    rfl
  · intro ss
    unfold RMap.Date
    rw [mapGet_single]
    dsimp only
    rfl
  · intro s h1 h2
    unfold RMap.Date
    rw [mapGet_single]
    dsimp only
    rw [h1, h2]
    rfl

/-- C8 amended witness: the date 2018-11-25 through all three shapes,
plus the nil cases at concrete inputs. -/
theorem C8_date_three_shapes_witness :
    RMap.Date [("WHENDUE", .node [("Year", .str (pad4 2018)),
                                  ("Month", .str (pad2 11)),
                                  ("Day", .str (pad2 25))])] "WHENDUE"
        = some (goDate 2018 11 25)
      ∧ RMap.Date [("WHENDUE", .str (pad4 2018 ++ "-" ++ pad2 11 ++ "-" ++ pad2 25))]
          "WHENDUE" = some (goDate 2018 11 25)
      ∧ RMap.Date [("WHENDUE", .str (pad2 11 ++ "-" ++ pad2 25 ++ "-" ++ pad4 2018))]
          "WHENDUE" = some (goDate 2018 11 25)
      ∧ RMap.Date [] "WHENDUE" = none
      ∧ (∀ sy sm sd : String,
          goAtoi sy ≤ 0 ∨ goAtoi sm ≤ 0 ∨ goAtoi sd ≤ 0 →
          RMap.Date [("WHENDUE", .node [("Year", .str sy), ("Month", .str sm),
                                        ("Day", .str sd)])] "WHENDUE" = none)
      ∧ (∀ ss, RMap.Date [("WHENDUE", .strs ss)] "WHENDUE" = none)
      ∧ (∀ s, parseYMD s = none → parseMDY s = none →
          RMap.Date [("WHENDUE", .str s)] "WHENDUE" = none) :=
  C8_date_three_shapes "WHENDUE" 2018 11 25 (by norm_num) (by norm_num) (by norm_num)
    (by norm_num) (by norm_num) (by decide) (by norm_num)

end Intacct
